import Mathlib

/-!
Verification of the heracles access-control core (heracles-core/src/acl).

The Rust data types and functions are embedded shallowly:

* `PermissionBitmap` (bitmap.rs) becomes a wrapper around `Nat`; the `u128`
  operations are Nat bitwise operations, complement is XOR with the 128-bit
  mask, and the signed 64-bit halves used for storage become `Int` values.
* Strings are Lean `String`s; `to_ascii_lowercase` maps the ASCII range, and
  `str::ends_with` is modelled as a character-list suffix test.
* `HashMap` / `HashSet` (attributes.rs, engine.rs, compiler.rs) become
  association lists resp. plain lists with membership semantics; lookup and
  the `entry`-style in-place update follow the first matching key.
* Panics (the `assert!` in `PermissionBitmap::from_bit`) are modelled as
  `Option.none`.
-/

/-- Rust `u8::to_ascii_lowercase` on one character: map only the range A-Z. -/
def lowerChar (c : Char) : Char :=
  if 65 ≤ c.toNat ∧ c.toNat ≤ 90 then Char.ofNat (c.toNat + 32) else c

/-- Rust `str::to_ascii_lowercase`: lowercase every character. -/
def lowerStr (s : String) : String :=
  String.mk (s.data.map lowerChar)

/-- Rust `str::ends_with`, as a suffix test on the character list. -/
def strEndsWith (s suf : String) : Bool :=
  suf.data.isSuffixOf s.data

/-- Embedding of `PermissionBitmap` (bitmap.rs): a `u128` of permission bits,
    represented as a `Nat`; constructible values keep `bits < 2 ^ 128`. -/
structure PermissionBitmap where
  bits : Nat
deriving DecidableEq, Repr

namespace PermissionBitmap

/-- Rust `!` on `u128`: complement within 128 bits. -/
def u128Not (n : Nat) : Nat := n ^^^ (2 ^ 128 - 1)

/-- The empty bitmap `PermissionBitmap::EMPTY`. -/
def EMPTY : PermissionBitmap := ⟨0⟩

/-- Rust `PermissionBitmap::from_raw`. -/
def from_raw (n : Nat) : PermissionBitmap := ⟨n⟩

/-- Rust `PermissionBitmap::from_bit(pos)`: the source asserts `pos < 128` and
    panics otherwise; the panic is modelled as `none`. -/
def from_bit (pos : Nat) : Option PermissionBitmap :=
  if pos < 128 then some ⟨1 <<< pos⟩ else none

/-- Reinterpretation of a `u64` value as an `i64` (Rust `as i64`). -/
def u64ToI64 (n : Nat) : Int :=
  if n < 2 ^ 63 then (n : Int) else (n : Int) - 2 ^ 64

/-- Reinterpretation of an `i64` value as a `u64` (Rust `as u64`). -/
def i64ToU64 (i : Int) : Nat :=
  (i % (2 ^ 64 : Int)).toNat

/-- Rust `PermissionBitmap::from_halves(low, high)`. -/
def from_halves (low high : Int) : PermissionBitmap :=
  ⟨(i64ToU64 low) ||| ((i64ToU64 high) <<< 64)⟩

/-- Rust `PermissionBitmap::to_halves`. -/
def to_halves (b : PermissionBitmap) : Int × Int :=
  (u64ToI64 (b.bits % 2 ^ 64), u64ToI64 ((b.bits >>> 64) % 2 ^ 64))

/-- Rust `PermissionBitmap::has`: all bits of `required` are present. -/
def has (b required : PermissionBitmap) : Bool :=
  decide (b.bits &&& required.bits = required.bits)

/-- Rust `PermissionBitmap::has_bit`. -/
def has_bit (b : PermissionBitmap) (pos : Nat) : Bool :=
  if 128 ≤ pos then false else decide (b.bits &&& (1 <<< pos) ≠ 0)

/-- Rust `PermissionBitmap::union`. -/
def union (b other : PermissionBitmap) : PermissionBitmap :=
  ⟨b.bits ||| other.bits⟩

/-- Rust `PermissionBitmap::subtract`: `self.bits & !other.bits`. -/
def subtract (b other : PermissionBitmap) : PermissionBitmap :=
  ⟨b.bits &&& u128Not other.bits⟩

/-- Rust `PermissionBitmap::is_empty`. -/
def is_empty (b : PermissionBitmap) : Bool :=
  decide (b.bits = 0)

end PermissionBitmap

/-- Embedding of `AttributeFilter` (attributes.rs).  The Rust `HashSet<String>`
    fields become lists; all operations below use only their membership, so the
    set semantics is preserved. -/
structure AttributeFilter where
  allowed : Option (List String)
  denied : List String
deriving Repr, DecidableEq

namespace AttributeFilter

/-- Constructor `AttributeFilter::new`: normalizes both sets to lowercase. -/
def new (allowed : Option (List String)) (denied : List String) : AttributeFilter :=
  ⟨allowed.map (List.map lowerStr), denied.map lowerStr⟩

/-- Rust `AttributeFilter::allow_all`. -/
def allow_all : AttributeFilter := ⟨none, []⟩

/-- Rust `AttributeFilter::deny_all`: empty whitelist. -/
def deny_all : AttributeFilter := ⟨some [], []⟩

/-- Rust `AttributeFilter::with_allowed`. -/
def with_allowed (attrs : List String) : AttributeFilter :=
  ⟨some (attrs.map lowerStr), []⟩

/-- Rust `AttributeFilter::with_denied`. -/
def with_denied (attrs : List String) : AttributeFilter :=
  ⟨none, attrs.map lowerStr⟩

/-- Rust `AttributeFilter::is_attribute_permitted`: deny wins, then whitelist. -/
def is_attribute_permitted (f : AttributeFilter) (attr : String) : Bool :=
  if lowerStr attr ∈ f.denied then false
  else
    match f.allowed with
    | none => true
    | some allowed => decide (lowerStr attr ∈ allowed)

/-- Rust `AttributeFilter::filter_attributes`. -/
def filter_attributes (f : AttributeFilter) (attrs : List String) : List String :=
  attrs.filter (fun a => f.is_attribute_permitted a)

/-- Rust `AttributeFilter::merge` (functional form): denies are unioned; whitelists
    are unioned, a whitelist on either side survives. -/
def merge (f other : AttributeFilter) : AttributeFilter :=
  { allowed :=
      match f.allowed, other.allowed with
      | some fa, some oa => some (fa ++ oa)
      | some fa, none => some fa
      | none, some oa => some oa
      | none, none => none,
    denied := f.denied ++ other.denied }

/-- Rust `AttributeFilter::merged`. -/
def merged (f other : AttributeFilter) : AttributeFilter := f.merge other

/-- Rust `AttributeFilter::add_denied`. -/
def add_denied (f : AttributeFilter) (attrs : List String) : AttributeFilter :=
  { f with denied := f.denied ++ attrs.map lowerStr }

end AttributeFilter

/-- Embedding of `ObjectAttributeAcl` (attributes.rs). -/
structure ObjectAttributeAcl where
  read : AttributeFilter
  write : AttributeFilter
deriving Repr, DecidableEq

namespace ObjectAttributeAcl

/-- Rust `ObjectAttributeAcl::allow_all`. -/
def allow_all : ObjectAttributeAcl :=
  ⟨AttributeFilter.allow_all, AttributeFilter.allow_all⟩

/-- Rust `ObjectAttributeAcl::merge` (functional form). -/
def merge (oa other : ObjectAttributeAcl) : ObjectAttributeAcl :=
  ⟨oa.read.merge other.read, oa.write.merge other.write⟩

end ObjectAttributeAcl

/-- The `HashMap<String, ObjectAttributeAcl>` of the source, as an association
    list; lookups and updates address the first matching key. -/
abbrev AttrMap := List (String × ObjectAttributeAcl)

/-- Rust `HashMap::get` on an `AttrMap`. -/
def mapGet (m : AttrMap) (k : String) : Option ObjectAttributeAcl :=
  match m with
  | [] => none
  | (k', v) :: rest => if k' = k then some v else mapGet rest k

/-- Lookup with the `allow_all` default used by the deny-merge paths. -/
def getFilterAcl (m : AttrMap) (k : String) : ObjectAttributeAcl :=
  (mapGet m k).getD ObjectAttributeAcl.allow_all

/-- Rust `HashMap::entry(k).or_insert_with(allow_all)` followed by an in-place
    update of that entry. -/
def updateEntry (m : AttrMap) (k : String) (f : ObjectAttributeAcl → ObjectAttributeAcl) : AttrMap :=
  match m with
  | [] => [(k, f ObjectAttributeAcl.allow_all)]
  | (k', v) :: rest => if k' = k then (k', f v) :: rest else (k', v) :: updateEntry rest k f

/-- The allow-merge update of `merge_global_attr_acls_allow`: merge into an
    existing entry, or insert the new ACL as-is. -/
def insertOrMergeAcl (m : AttrMap) (k : String) (new_acl : ObjectAttributeAcl) : AttrMap :=
  match m with
  | [] => [(k, new_acl)]
  | (k', v) :: rest =>
      if k' = k then (k', v.merge new_acl) :: rest
      else (k', v) :: insertOrMergeAcl rest k new_acl

/-- Embedding of `ScopedEntry` (engine.rs). -/
structure ScopedEntry where
  dn_lower : String
  subtree : Bool
  self_only : Bool
  deny : Bool
  priority : Int
  permissions : PermissionBitmap
  attr_acls : AttrMap
deriving Repr, DecidableEq

/-- Rust `ScopedEntry::matches` (engine.rs): self-only gate, then subtree suffix
    match (empty scope DN matches everything) or exact base match. -/
def ScopedEntry.matches (e : ScopedEntry) (target_dn_lower _user_dn_lower : String)
    (is_self : Bool) : Bool :=
  if e.self_only && !is_self then false
  else if e.subtree then
    if e.dn_lower = "" then true
    else decide (target_dn_lower = e.dn_lower)
      || strEndsWith target_dn_lower ("," ++ e.dn_lower)
  else decide (target_dn_lower = e.dn_lower)

/-- Embedding of `AclVerdict` (engine.rs). -/
structure AclVerdict where
  allowed : Bool
  attr_filter : AttributeFilter
deriving Repr

/-- Stable insertion (ascending priority) used to model the stable
    `sort_by_key` in `UserAcl::new`. -/
def insertScoped (e : ScopedEntry) : List ScopedEntry → List ScopedEntry
  | [] => [e]
  | x :: xs => if e.priority ≤ x.priority then e :: x :: xs else x :: insertScoped e xs

/-- Stable sort of scoped entries by ascending priority. -/
def sortScoped : List ScopedEntry → List ScopedEntry
  | [] => []
  | e :: l => insertScoped e (sortScoped l)

/-- Embedding of `UserAcl` (engine.rs). -/
structure UserAcl where
  user_dn : String
  user_dn_lower : String
  global_allow : PermissionBitmap
  global_deny : PermissionBitmap
  global_attr_acls : AttrMap
  scoped_entries : List ScopedEntry
deriving Repr

namespace UserAcl

/-- Rust `UserAcl::new`: lowercases the user DN and sorts the scoped entries by
    priority ascending with a stable sort. -/
def new (user_dn : String) (global_allow global_deny : PermissionBitmap)
    (global_attr_acls : AttrMap) (scoped_entries : List ScopedEntry) : UserAcl :=
  { user_dn := user_dn
    user_dn_lower := lowerStr user_dn
    global_allow := global_allow
    global_deny := global_deny
    global_attr_acls := global_attr_acls
    scoped_entries := sortScoped scoped_entries }

/-- The same-action filter selection `if action == "write" { write } else { read }`. -/
def selectActionFilter (oa : ObjectAttributeAcl) (action : String) : AttributeFilter :=
  if action = "write" then oa.write else oa.read

/-- Loop body of `UserAcl::resolve_attr_filter_for_type`. -/
def resolveStepForType (tl ul : String) (is_self : Bool) (object_type action : String)
    (filter : AttributeFilter) (e : ScopedEntry) : AttributeFilter :=
  if e.matches tl ul is_self then
    match mapGet e.attr_acls object_type with
    | some oa =>
        let entry_filter := selectActionFilter oa action
        if e.deny then filter.add_denied entry_filter.denied
        else filter.merge entry_filter
    | none => filter
  else filter

/-- Rust `UserAcl::resolve_attr_filter_for_type`. -/
def resolve_attr_filter_for_type (acl : UserAcl) (target_dn object_type action : String) :
    AttributeFilter :=
  let target_lower := lowerStr target_dn
  let is_self := decide (target_lower = acl.user_dn_lower)
  let start :=
    match mapGet acl.global_attr_acls object_type with
    | some oa => selectActionFilter oa action
    | none => AttributeFilter.allow_all
  acl.scoped_entries.foldl
    (resolveStepForType target_lower acl.user_dn_lower is_self object_type action) start

/-- Loop body of the generic `UserAcl::resolve_attr_filter`: a deny entry
    contributes at most one denied attribute (`denied().iter().next()`,
    determinized here to the list head). -/
def resolveStepGeneric (tl ul : String) (is_self : Bool) (object_type : String)
    (filter : AttributeFilter) (e : ScopedEntry) : AttributeFilter :=
  if e.matches tl ul is_self then
    match mapGet e.attr_acls object_type with
    | some oa =>
        if e.deny then
          match oa.read.denied.head? with
          | some d => filter.add_denied [d]
          | none => filter
        else filter.merge oa.read
    | none => filter
  else filter

/-- Generic `UserAcl::resolve_attr_filter` (read filters only). -/
def resolve_attr_filter (acl : UserAcl) (target_dn object_type : String) : AttributeFilter :=
  let target_lower := lowerStr target_dn
  let is_self := decide (target_lower = acl.user_dn_lower)
  let start :=
    match mapGet acl.global_attr_acls object_type with
    | some oa => oa.read
    | none => AttributeFilter.allow_all
  acl.scoped_entries.foldl (resolveStepGeneric target_lower acl.user_dn_lower is_self object_type) start

/-- Rust `UserAcl::evaluate`: empty-required shortcut, else the layered
    allow/deny fold over the scoped entries. -/
def evaluate (acl : UserAcl) (target_dn : String) (required : PermissionBitmap) : AclVerdict :=
  if required.is_empty then
    { allowed := true, attr_filter := acl.resolve_attr_filter target_dn "" }
  else
    let target_lower := lowerStr target_dn
    let is_self := decide (target_lower = acl.user_dn_lower)
    let effective := acl.scoped_entries.foldl
      (fun eff e =>
        if e.matches target_lower acl.user_dn_lower is_self then
          if e.deny then eff.subtract e.permissions else eff.union e.permissions
        else eff)
      (acl.global_allow.subtract acl.global_deny)
    { allowed := effective.has required, attr_filter := acl.resolve_attr_filter target_dn "" }

/-- Rust `UserAcl::check`. -/
def check (acl : UserAcl) (target_dn : String) (required : PermissionBitmap) : Bool :=
  (acl.evaluate target_dn required).allowed

/-- Rust `UserAcl::check_attribute`. -/
def check_attribute (acl : UserAcl) (target_dn : String) (required : PermissionBitmap)
    (object_type action attribute_name : String) : Bool :=
  let verdict := acl.evaluate target_dn required
  if !verdict.allowed then false
  else (acl.resolve_attr_filter_for_type target_dn object_type action).is_attribute_permitted
    attribute_name

/-- Rust `UserAcl::filter_attributes`. -/
def filter_attributes (acl : UserAcl) (target_dn : String) (required : PermissionBitmap)
    (object_type action : String) (attributes : List String) : List String :=
  let verdict := acl.evaluate target_dn required
  if !verdict.allowed then []
  else (acl.resolve_attr_filter_for_type target_dn object_type action).filter_attributes
    attributes

/-- Rust `UserAcl::effective_permissions`: the fold of `evaluate` without the
    `has` test. -/
def effective_permissions (acl : UserAcl) (target_dn : String) : PermissionBitmap :=
  let target_lower := lowerStr target_dn
  let is_self := decide (target_lower = acl.user_dn_lower)
  acl.scoped_entries.foldl
    (fun eff e =>
      if e.matches target_lower acl.user_dn_lower is_self then
        if e.deny then eff.subtract e.permissions else eff.union e.permissions
      else eff)
    (acl.global_allow.subtract acl.global_deny)

end UserAcl

/-- Embedding of `AttrRuleRow` (compiler.rs). -/
structure AttrRuleRow where
  object_type : String
  action : String
  rule_type : String
  attributes : List String
deriving Repr

/-- Embedding of `AclRow` (compiler.rs); the `i64` halves become `Int` and
    the `i16` priority becomes `Int`. -/
structure AclRow where
  policy_name : String
  perm_low : Int
  perm_high : Int
  scope_dn : String
  scope_type : String
  self_only : Bool
  deny : Bool
  priority : Int
  attr_rules : List AttrRuleRow
deriving Repr

/-- Fold of `build_attr_filter` (compiler.rs): union allow-rule attributes
    into an optional whitelist, union deny-rule attributes into the deny set,
    then normalize through `AttributeFilter::new`. -/
def build_attr_filter (rules : List AttrRuleRow) : AttributeFilter :=
  let res := rules.foldl
    (fun (st : Option (List String) × List String) rule =>
      if rule.rule_type = "allow" then
        (some ((st.1.getD []) ++ rule.attributes.map lowerStr), st.2)
      else if rule.rule_type = "deny" then
        (st.1, st.2 ++ rule.attributes.map lowerStr)
      else st)
    (none, [])
  AttributeFilter.new res.1 res.2

/-- Object types in order of first appearance (the key set of the grouping
    map in `build_attr_acls`). -/
def dedupKeys (l : List String) : List String :=
  l.foldl (fun acc x => if x ∈ acc then acc else acc ++ [x]) []

/-- Rust `build_attr_acls` (compiler.rs): group the rules by object type and
    action; an action with no rules leaves that side `allow_all`. -/
def build_attr_acls (rules : List AttrRuleRow) : AttrMap :=
  (dedupKeys (rules.map (·.object_type))).map (fun ot =>
    let rs := rules.filter (fun r => decide (r.object_type = ot))
    let readRules := rs.filter (fun r => decide (r.action = "read"))
    let writeRules := rs.filter (fun r => decide (r.action = "write"))
    (ot,
      { read := if readRules.isEmpty then AttributeFilter.allow_all
                else build_attr_filter readRules,
        write := if writeRules.isEmpty then AttributeFilter.allow_all
                 else build_attr_filter writeRules }))

/-- Rust `merge_global_attr_acls_allow` (compiler.rs). -/
def merge_global_attr_acls_allow (global new_acls : AttrMap) : AttrMap :=
  match new_acls with
  | [] => global
  | (k, a) :: rest => merge_global_attr_acls_allow (insertOrMergeAcl global k a) rest

/-- Effect of one deny policy on one global `ObjectAttributeAcl` inside
    `merge_global_attr_acls_deny`: both denied sets grow, nothing else moves. -/
def denyMergeOne (acl deny_acl : ObjectAttributeAcl) : ObjectAttributeAcl :=
  { read := acl.read.add_denied deny_acl.read.denied
    write := acl.write.add_denied deny_acl.write.denied }

/-- Rust `merge_global_attr_acls_deny` (compiler.rs). -/
def merge_global_attr_acls_deny (global deny_acls : AttrMap) : AttrMap :=
  match deny_acls with
  | [] => global
  | (k, a) :: rest =>
      merge_global_attr_acls_deny (updateEntry global k (fun acl => denyMergeOne acl a)) rest

/-- Loop body of `compile` (compiler.rs): classify one row as global or
    scoped and fold it into the accumulated state. -/
def compileStep (st : PermissionBitmap × PermissionBitmap × AttrMap × List ScopedEntry)
    (row : AclRow) : PermissionBitmap × PermissionBitmap × AttrMap × List ScopedEntry :=
  let permissions := PermissionBitmap.from_halves row.perm_low row.perm_high
  let attr_acls := build_attr_acls row.attr_rules
  let is_subtree := decide (lowerStr row.scope_type = lowerStr "subtree")
  if row.scope_dn = "" ∧ row.self_only = false then
    if row.deny then
      (st.1, st.2.1.union permissions, merge_global_attr_acls_deny st.2.2.1 attr_acls, st.2.2.2)
    else
      (st.1.union permissions, st.2.1, merge_global_attr_acls_allow st.2.2.1 attr_acls, st.2.2.2)
  else
    (st.1, st.2.1, st.2.2.1,
      st.2.2.2 ++ [{ dn_lower := lowerStr row.scope_dn
                     subtree := is_subtree
                     self_only := row.self_only
                     deny := row.deny
                     priority := row.priority
                     permissions := permissions
                     attr_acls := attr_acls }])

/-- Rust `compile` (compiler.rs). -/
def compile (user_dn : String) (rows : List AclRow) : UserAcl :=
  let st := rows.foldl compileStep
    (PermissionBitmap.EMPTY, PermissionBitmap.EMPTY, ([] : AttrMap), ([] : List ScopedEntry))
  UserAcl.new user_dn st.1 st.2.1 st.2.2.1 st.2.2.2

/-- The evaluation fold of spec section 4.5.1 steps 3-4, stated over an
    explicit entry list; used to compare `effective_permissions` with the
    spec's description. -/
def specEffectiveFold (ga gd : PermissionBitmap) (entries : List ScopedEntry)
    (tl ul : String) (is_self : Bool) : PermissionBitmap :=
  entries.foldl
    (fun eff e =>
      if e.matches tl ul is_self then
        if e.deny then eff.subtract e.permissions else eff.union e.permissions
      else eff)
    (ga.subtract gd)

/-- All denied attributes (lowercased) that the rows of `d` keyed `k`
    contribute for the given side (`true` = read, `false` = write). -/
def collectDenied (d : AttrMap) (k : String) (isRead : Bool) : List String :=
  match d with
  | [] => []
  | (k', a) :: rest =>
      (if k' = k then ((if isRead then a.read else a.write).denied.map lowerStr) else [])
        ++ collectDenied rest k isRead

/-- Absorption between the two Nat bitwise operations behind `has` and
    `union`. -/
lemma nat_and_eq_iff_or_eq (x y : Nat) : x &&& y = y ↔ x ||| y = x := by
  constructor
  · intro h
    apply Nat.eq_of_testBit_eq
    intro i
    have hi := congrArg (fun n => n.testBit i) h
    simp only [Nat.testBit_and] at hi
    simp only [Nat.testBit_or]
    cases hx : x.testBit i <;> cases hy : y.testBit i <;> simp_all
  · intro h
    apply Nat.eq_of_testBit_eq
    intro i
    have hi := congrArg (fun n => n.testBit i) h
    simp only [Nat.testBit_or] at hi
    simp only [Nat.testBit_and]
    cases hx : x.testBit i <;> cases hy : y.testBit i <;> simp_all

/-- The signed reinterpretation of a 64-bit value is undone exactly by the
    unsigned reinterpretation. -/
lemma i64_u64_roundtrip (n : Nat) (h : n < 2 ^ 64) :
    PermissionBitmap.i64ToU64 (PermissionBitmap.u64ToI64 n) = n := by
  unfold PermissionBitmap.i64ToU64 PermissionBitmap.u64ToI64
  split <;> omega

/-- Recombining the two stored halves of any 128-bit value gives it back. -/
lemma from_to_halves (bits : Nat) (h : bits < 2 ^ 128) :
    PermissionBitmap.from_halves (PermissionBitmap.to_halves ⟨bits⟩).1
      (PermissionBitmap.to_halves ⟨bits⟩).2 = ⟨bits⟩ := by
  unfold PermissionBitmap.to_halves PermissionBitmap.from_halves
  have h1 : bits % 2 ^ 64 < 2 ^ 64 := Nat.mod_lt _ (by norm_num)
  have h2 : (bits >>> 64) % 2 ^ 64 < 2 ^ 64 := Nat.mod_lt _ (by norm_num)
  rw [i64_u64_roundtrip _ h1, i64_u64_roundtrip _ h2]
  congr 1
  have h3 : bits >>> 64 < 2 ^ 64 := by
    rw [Nat.shiftRight_eq_div_pow]
    omega
  rw [Nat.mod_eq_of_lt h3]
  apply Nat.eq_of_testBit_eq
  intro i
  simp only [Nat.testBit_or, Nat.testBit_mod_two_pow, Nat.testBit_shiftLeft,
    Nat.testBit_shiftRight]
  by_cases hi : i < 64
  · have hge : ¬(i ≥ 64) := by omega
    simp [hi, hge]
  · have h64 : i ≥ 64 := by omega
    have heq : 64 + (i - 64) = i := by omega
    simp [hi, h64, heq]

/-- C6: the permission bitmap algebra: union is commutative with the empty
    bitmap as unit, subtracting a bitmap from itself empties it, `has` is the
    absorption test `a ∪ b = a`, and the signed two-half storage
    reinterpretation is lossless on every constructible bitmap, including
    those with bit 63 or bit 127 set. -/
theorem c6_bitmap_algebra (a b : PermissionBitmap)
    (ha : a.bits < 2 ^ 128) (hb : b.bits < 2 ^ 128) :
    a.union b = b.union a
  ∧ a.union PermissionBitmap.EMPTY = a
  ∧ a.subtract a = PermissionBitmap.EMPTY
  ∧ (a.has b = true ↔ a.union b = a)
  ∧ PermissionBitmap.from_halves (a.to_halves).1 (a.to_halves).2 = a := by
  obtain ⟨abits⟩ := a
  obtain ⟨bbits⟩ := b
  refine ⟨?_, ?_, ?_, ?_, ?_⟩
  · simp [PermissionBitmap.union, Nat.or_comm]
  · simp [PermissionBitmap.union, PermissionBitmap.EMPTY]
  · simp only [PermissionBitmap.subtract, PermissionBitmap.u128Not, PermissionBitmap.EMPTY,
      PermissionBitmap.mk.injEq]
    apply Nat.eq_of_testBit_eq
    intro i
    simp only [Nat.testBit_and, Nat.testBit_xor, Nat.testBit_two_pow_sub_one,
      Nat.zero_testBit]
    by_cases hi : i < 128
    · simp [hi]
    · have hx : abits.testBit i = false :=
        Nat.testBit_lt_two_pow (lt_of_lt_of_le ha (Nat.pow_le_pow_right (by norm_num) (by omega)))
      simp [hi, hx]
  · simp only [PermissionBitmap.has, PermissionBitmap.union, PermissionBitmap.mk.injEq,
      decide_eq_true_eq]
    exact nat_and_eq_iff_or_eq abits bbits
  · exact from_to_halves abits ha

/-- C6 witness: the algebra instantiated at a bitmap with bits 63 and 127 set
    and a small second bitmap. -/
theorem c6_bitmap_algebra_witness :
    (PermissionBitmap.mk (2 ^ 127 + 2 ^ 63)).bits < 2 ^ 128
  ∧ (PermissionBitmap.mk 5).bits < 2 ^ 128
  ∧ ((PermissionBitmap.mk (2 ^ 127 + 2 ^ 63)).union (PermissionBitmap.mk 5)
        = (PermissionBitmap.mk 5).union (PermissionBitmap.mk (2 ^ 127 + 2 ^ 63))
    ∧ (PermissionBitmap.mk (2 ^ 127 + 2 ^ 63)).union PermissionBitmap.EMPTY
        = PermissionBitmap.mk (2 ^ 127 + 2 ^ 63)
    ∧ (PermissionBitmap.mk (2 ^ 127 + 2 ^ 63)).subtract (PermissionBitmap.mk (2 ^ 127 + 2 ^ 63))
        = PermissionBitmap.EMPTY
    ∧ ((PermissionBitmap.mk (2 ^ 127 + 2 ^ 63)).has (PermissionBitmap.mk 5) = true
        ↔ (PermissionBitmap.mk (2 ^ 127 + 2 ^ 63)).union (PermissionBitmap.mk 5)
            = PermissionBitmap.mk (2 ^ 127 + 2 ^ 63))
    ∧ PermissionBitmap.from_halves
        ((PermissionBitmap.mk (2 ^ 127 + 2 ^ 63)).to_halves).1
        ((PermissionBitmap.mk (2 ^ 127 + 2 ^ 63)).to_halves).2
        = PermissionBitmap.mk (2 ^ 127 + 2 ^ 63)) :=
  ⟨by norm_num, by norm_num,
    c6_bitmap_algebra (PermissionBitmap.mk (2 ^ 127 + 2 ^ 63)) (PermissionBitmap.mk 5)
      (by norm_num) (by norm_num)⟩

/-- C7: `from_bit` fails (the out-of-range construction failure, modelled as
    `none`) exactly when the position is at least 128, and for any position
    below 128 it succeeds with the bitmap whose only set bit is that
    position. -/
theorem c7_from_bit (pos : Nat) :
    (128 ≤ pos → PermissionBitmap.from_bit pos = none)
  ∧ (pos < 128 →
      PermissionBitmap.from_bit pos = some (PermissionBitmap.mk (2 ^ pos))
      ∧ ∀ j : Nat, (PermissionBitmap.mk (2 ^ pos)).has_bit j = decide (j = pos)) := by
  constructor
  · intro h
    unfold PermissionBitmap.from_bit
    rw [if_neg (by omega)]
  · intro h
    refine ⟨?_, ?_⟩
    · unfold PermissionBitmap.from_bit
      rw [if_pos h]
      simp [Nat.shiftLeft_eq]
    · intro j
      unfold PermissionBitmap.has_bit
      by_cases hj : 128 ≤ j
      · rw [if_pos hj]
        symm
        apply decide_eq_false
        omega
      · rw [if_neg hj]
        simp only [Nat.shiftLeft_eq, one_mul]
        by_cases hjp : j = pos
        · subst hjp
          simp [Nat.and_self, (Nat.two_pow_pos j).ne']
        · have hz : 2 ^ pos &&& 2 ^ j = 0 := by
            apply Nat.eq_of_testBit_eq
            intro i
            simp only [Nat.testBit_and, Nat.testBit_two_pow, Nat.zero_testBit]
            by_cases hpi : pos = i
            · subst hpi
              simp [hjp]
            · simp [hpi]
          simp [hz, hjp]

/-- C9: an empty required bitmap is always allowed, for every ACL and target. -/
theorem c9_empty_required (acl : UserAcl) (target_dn : String) :
    acl.check target_dn PermissionBitmap.EMPTY = true := by
  simp [UserAcl.check, UserAcl.evaluate, PermissionBitmap.is_empty, PermissionBitmap.EMPTY]

/-- C7 witness: failure at position 130, success at position 5 with exactly
    bit 5 set. -/
theorem c7_from_bit_witness :
    PermissionBitmap.from_bit 130 = none
  ∧ PermissionBitmap.from_bit 5 = some (PermissionBitmap.mk (2 ^ 5))
  ∧ (PermissionBitmap.mk (2 ^ 5)).has_bit 5 = decide (5 = 5)
  ∧ (PermissionBitmap.mk (2 ^ 5)).has_bit 6 = decide (6 = 5) :=
  ⟨(c7_from_bit 130).1 (by decide), ((c7_from_bit 5).2 (by decide)).1,
   ((c7_from_bit 5).2 (by decide)).2 5, ((c7_from_bit 5).2 (by decide)).2 6⟩

/-- Nonempty bitmaps make `is_empty` false. -/
lemma is_empty_false_of_ne {r : PermissionBitmap} (hr : ¬(r = PermissionBitmap.EMPTY)) :
    r.is_empty = false := by
  obtain ⟨rb⟩ := r
  simp only [PermissionBitmap.EMPTY, PermissionBitmap.mk.injEq] at hr
  exact decide_eq_false hr

/-- C1: for non-empty required bitmaps, `check` is exactly the superset test
    of `effective_permissions` against the requirement; and on any compiled
    ACL, `effective_permissions` is the spec's fold (global allow minus
    global deny, then the matching scoped entries in ascending-priority
    order, deny subtracting and allow unioning). -/
theorem c1_check_is_effective_has :
    (∀ (acl : UserAcl) (target_dn : String) (required : PermissionBitmap),
        ¬(required = PermissionBitmap.EMPTY) →
        acl.check target_dn required = (acl.effective_permissions target_dn).has required)
  ∧ (∀ (user_dn : String) (ga gd : PermissionBitmap) (m : AttrMap) (l : List ScopedEntry)
        (target_dn : String),
        (UserAcl.new user_dn ga gd m l).effective_permissions target_dn
          = specEffectiveFold ga gd (sortScoped l) (lowerStr target_dn) (lowerStr user_dn)
              (decide (lowerStr target_dn = lowerStr user_dn))) := by
  constructor
  · intro acl t r hr
    have hre : r.is_empty = false := is_empty_false_of_ne hr
    simp [UserAcl.check, UserAcl.evaluate, UserAcl.effective_permissions, hre]
  · intro dn ga gd m l t
    rfl

/-- Sample compiled ACL with two global allow bits, used by witnesses. -/
def sampleAcl : UserAcl :=
  UserAcl.new "uid=u,dc=x" (PermissionBitmap.mk 3) PermissionBitmap.EMPTY [] []

/-- C1 witness: the check/effective agreement at a concrete ACL, target and
    non-empty requirement. -/
theorem c1_check_is_effective_has_witness :
    ¬(PermissionBitmap.mk 1 = PermissionBitmap.EMPTY)
  ∧ sampleAcl.check "uid=v,dc=x" (PermissionBitmap.mk 1)
      = (sampleAcl.effective_permissions "uid=v,dc=x").has (PermissionBitmap.mk 1) :=
  ⟨by decide, c1_check_is_effective_has.1 sampleAcl "uid=v,dc=x" (PermissionBitmap.mk 1)
    (by decide)⟩

/-- C10: when the required bitmap is non-empty and the object-level check
    fails, `filter_attributes` returns the empty list whatever was asked
    for. -/
theorem c10_filter_attributes_empty_on_denied :
    ∀ (acl : UserAcl) (target_dn : String) (required : PermissionBitmap)
      (object_type action : String) (attrs : List String),
      ¬(required = PermissionBitmap.EMPTY) →
      (acl.effective_permissions target_dn).has required = false →
      acl.filter_attributes target_dn required object_type action attrs = [] := by
  intro acl t r ot act attrs hr heff
  have hre : r.is_empty = false := is_empty_false_of_ne hr
  simp only [UserAcl.effective_permissions] at heff
  simp [UserAcl.filter_attributes, UserAcl.evaluate, hre, heff]

/-- C10 witness: an ACL with no permissions rejects bit 0 and filters every
    requested attribute away. -/
theorem c10_filter_attributes_empty_witness :
    ¬(PermissionBitmap.mk 1 = PermissionBitmap.EMPTY)
  ∧ ((UserAcl.new "uid=u" PermissionBitmap.EMPTY PermissionBitmap.EMPTY []
        []).effective_permissions "uid=v").has (PermissionBitmap.mk 1) = false
  ∧ (UserAcl.new "uid=u" PermissionBitmap.EMPTY PermissionBitmap.EMPTY []
        []).filter_attributes "uid=v" (PermissionBitmap.mk 1) "user" "read" ["cn"] = [] :=
  ⟨by decide, by decide,
    c10_filter_attributes_empty_on_denied _ "uid=v" (PermissionBitmap.mk 1) "user" "read"
      ["cn"] (by decide) (by decide)⟩

/-- Example subtree-scoped entry at `ou=foo,dc=c`, from the spec's boundary
    example. -/
def fooEntry : ScopedEntry :=
  { dn_lower := "ou=foo,dc=c", subtree := true, self_only := false, deny := false,
    priority := 0, permissions := PermissionBitmap.EMPTY, attr_acls := [] }

/-- The same scope with base (exact-match) semantics. -/
def fooBaseEntry : ScopedEntry := { fooEntry with subtree := false }

/-- C3: scoped matching is boundary-correct: with a subtree scope and
    non-empty scope DN a target matches exactly when it equals the scope DN
    or ends with a comma followed by it, and with a base scope only the
    exact DN matches; in particular `cn=x,ou=foo,dc=c` is in the
    `ou=foo,dc=c` subtree while `ou=foobar,dc=c` is not. -/
theorem c3_matches_boundary :
    (∀ (e : ScopedEntry) (tl ul : String) (s : Bool),
        e.self_only = false → ¬(e.dn_lower = "") →
        (e.subtree = true →
          (e.matches tl ul s = true
            ↔ tl = e.dn_lower ∨ strEndsWith tl ("," ++ e.dn_lower) = true))
        ∧ (e.subtree = false → (e.matches tl ul s = true ↔ tl = e.dn_lower)))
  ∧ fooEntry.matches "cn=x,ou=foo,dc=c" "" false = true
  ∧ fooEntry.matches "ou=foo,dc=c" "" false = true
  ∧ fooEntry.matches "ou=foobar,dc=c" "" false = false
  ∧ fooBaseEntry.matches "ou=foo,dc=c" "" false = true
  ∧ fooBaseEntry.matches "cn=x,ou=foo,dc=c" "" false = false := by
  refine ⟨?_, by decide, by decide, by decide, by decide, by decide⟩
  intro e tl ul s hso hdn
  constructor
  · intro hsub
    simp [ScopedEntry.matches, hso, hsub, hdn]
  · intro hsub
    simp [ScopedEntry.matches, hso, hsub]

/-- C3 witness: the boundary characterization instantiated at the example
    subtree entry and a child target. -/
theorem c3_matches_boundary_witness :
    fooEntry.self_only = false
  ∧ ¬(fooEntry.dn_lower = "")
  ∧ fooEntry.subtree = true
  ∧ (fooEntry.matches "cn=x,ou=foo,dc=c" "" false = true
      ↔ "cn=x,ou=foo,dc=c" = fooEntry.dn_lower
        ∨ strEndsWith "cn=x,ou=foo,dc=c" ("," ++ fooEntry.dn_lower) = true) :=
  ⟨rfl, by decide, rfl,
    (c3_matches_boundary.1 fooEntry "cn=x,ou=foo,dc=c" "" false rfl (by decide)).1 rfl⟩

/-- C5 counterexample: merging an unrestricted filter with a deny-list
    filter stops permitting the denied attribute, so the merge is not more
    permissive than each argument alone. -/
theorem c5_merge_not_or_monotone :
    AttributeFilter.allow_all.is_attribute_permitted "a" = true
  ∧ (AttributeFilter.allow_all.merged
      (AttributeFilter.with_denied ["a"])).is_attribute_permitted "a" = false :=
  ⟨by decide, by decide⟩

/-- C5 (amended): the merge is permissive with respect to the conjunction of
    its arguments: any attribute both filters permit stays permitted after
    the merge. -/
theorem c5_merge_and_monotone :
    ∀ (f g : AttributeFilter) (x : String),
      f.is_attribute_permitted x = true → g.is_attribute_permitted x = true →
      (f.merged g).is_attribute_permitted x = true := by
  intro f g x hf hg
  obtain ⟨fa, fd⟩ := f
  obtain ⟨ga, gd⟩ := g
  simp only [AttributeFilter.is_attribute_permitted, AttributeFilter.merged,
    AttributeFilter.merge] at hf hg ⊢
  by_cases hdf : lowerStr x ∈ fd
  · simp [hdf] at hf
  · by_cases hdg : lowerStr x ∈ gd
    · simp [hdg] at hg
    · rcases fa with _ | fa <;> rcases ga with _ | ga <;>
        simp_all [List.mem_append]

/-- C5 witness: the conjunction-monotonicity applied to a whitelist filter
    and an unrestricted filter at a commonly permitted attribute. -/
theorem c5_merge_and_monotone_witness :
    (AttributeFilter.with_allowed ["cn"]).is_attribute_permitted "cn" = true
  ∧ AttributeFilter.allow_all.is_attribute_permitted "cn" = true
  ∧ ((AttributeFilter.with_allowed ["cn"]).merged
      AttributeFilter.allow_all).is_attribute_permitted "cn" = true :=
  ⟨by decide, by decide,
    c5_merge_and_monotone (AttributeFilter.with_allowed ["cn"]) AttributeFilter.allow_all "cn"
      (by decide) (by decide)⟩

/-- Membership in a stable priority insertion. -/
lemma mem_insertScoped {e x : ScopedEntry} {l : List ScopedEntry} :
    x ∈ insertScoped e l ↔ x = e ∨ x ∈ l := by
  induction l with
  | nil => simp [insertScoped]
  | cons y ys ih =>
    unfold insertScoped
    by_cases h : e.priority ≤ y.priority
    · simp [h]
    · simp [h, ih]
      tauto

/-- Stable insertion preserves ascending-priority sortedness. -/
lemma sorted_insertScoped {e : ScopedEntry} {l : List ScopedEntry}
    (h : List.Sorted (fun a b => a.priority ≤ b.priority) l) :
    List.Sorted (fun a b => a.priority ≤ b.priority) (insertScoped e l) := by
  induction l with
  | nil => simp [insertScoped]
  | cons y ys ih =>
    rw [List.sorted_cons] at h
    unfold insertScoped
    by_cases hp : e.priority ≤ y.priority
    · rw [if_pos hp, List.sorted_cons]
      refine ⟨?_, ?_⟩
      · intro b hb
        rcases List.mem_cons.mp hb with rfl | hb
        · exact hp
        · exact le_trans hp (h.1 b hb)
      · rw [List.sorted_cons]
        exact h
    · rw [if_neg hp, List.sorted_cons]
      refine ⟨?_, ih h.2⟩
      intro b hb
      rcases mem_insertScoped.mp hb with rfl | hb
      · omega
      · exact h.1 b hb

/-- The modelled stable sort produces an ascending-priority list. -/
lemma sorted_sortScoped (l : List ScopedEntry) :
    List.Sorted (fun a b => a.priority ≤ b.priority) (sortScoped l) := by
  induction l with
  | nil => simp [sortScoped]
  | cons e l ih => exact sorted_insertScoped ih

/-- Inserting an entry commutes with filtering one priority level. -/
lemma filter_insertScoped (e : ScopedEntry) (l : List ScopedEntry) (p : Int) :
    (insertScoped e l).filter (fun x => decide (x.priority = p))
      = if e.priority = p then e :: l.filter (fun x => decide (x.priority = p))
        else l.filter (fun x => decide (x.priority = p)) := by
  induction l with
  | nil =>
    by_cases he : e.priority = p <;> simp [insertScoped, he]
  | cons y ys ih =>
    unfold insertScoped
    by_cases hp : e.priority ≤ y.priority
    · rw [if_pos hp]
      by_cases he : e.priority = p <;> simp [List.filter_cons, he]
    · rw [if_neg hp]
      rw [List.filter_cons, List.filter_cons]
      by_cases hy : y.priority = p
      · have he : ¬ e.priority = p := by omega
        simp [hy, he, ih]
      · by_cases he : e.priority = p <;> simp [hy, he, ih]

/-- The modelled stable sort preserves each equal-priority fiber in input
    order. -/
lemma filter_sortScoped (l : List ScopedEntry) (p : Int) :
    (sortScoped l).filter (fun x => decide (x.priority = p))
      = l.filter (fun x => decide (x.priority = p)) := by
  induction l with
  | nil => rfl
  | cons e l ih =>
    show (insertScoped e (sortScoped l)).filter _ = _
    rw [filter_insertScoped, List.filter_cons]
    by_cases he : e.priority = p <;> simp [he, ih]

/-- Union of permission bitmaps is commutative. -/
lemma pb_union_comm (a b : PermissionBitmap) : a.union b = b.union a := by
  simp [PermissionBitmap.union, Nat.or_comm]

/-- The empty bitmap is a left unit for union. -/
lemma pb_empty_union (b : PermissionBitmap) : PermissionBitmap.EMPTY.union b = b := by
  cases b
  simp [PermissionBitmap.union, PermissionBitmap.EMPTY]

/-- Subtracting the empty bitmap from itself gives the empty bitmap. -/
lemma pb_sub_empty_empty :
    PermissionBitmap.EMPTY.subtract PermissionBitmap.EMPTY = PermissionBitmap.EMPTY := by
  simp [PermissionBitmap.subtract, PermissionBitmap.EMPTY]

/-- Two matching allow entries contribute exactly the union of their
    bitmaps, whichever order they are supplied in. -/
lemma eff_two_allow (user_dn target_dn : String) (e1 e2 : ScopedEntry)
    (h1 : e1.deny = false) (h2 : e2.deny = false)
    (hm1 : e1.matches (lowerStr target_dn) (lowerStr user_dn)
      (decide (lowerStr target_dn = lowerStr user_dn)) = true)
    (hm2 : e2.matches (lowerStr target_dn) (lowerStr user_dn)
      (decide (lowerStr target_dn = lowerStr user_dn)) = true) :
    (UserAcl.new user_dn PermissionBitmap.EMPTY PermissionBitmap.EMPTY []
        [e1, e2]).effective_permissions target_dn
      = e1.permissions.union e2.permissions := by
  have hs : sortScoped [e1, e2]
      = if e1.priority ≤ e2.priority then [e1, e2] else [e2, e1] := by
    simp [sortScoped, insertScoped]
  simp only [UserAcl.new, UserAcl.effective_permissions]
  by_cases hple : e1.priority ≤ e2.priority
  · rw [hs, if_pos hple]
    simp [hm1, hm2, h1, h2, pb_sub_empty_empty, pb_empty_union]
  · rw [hs, if_neg hple]
    simp [hm1, hm2, h1, h2, pb_sub_empty_empty, pb_empty_union]
    rw [pb_union_comm]

/-- C8: `UserAcl::new` (hence `compile`) leaves the scoped entries sorted by
    ascending priority with equal-priority entries in input order, and two
    matching allow entries at distinct priorities yield the union of their
    bitmaps as effective permissions regardless of supply order. -/
theorem c8_scoped_sorted_stable :
    (∀ (user_dn : String) (ga gd : PermissionBitmap) (m : AttrMap) (l : List ScopedEntry),
        List.Sorted (fun a b => a.priority ≤ b.priority)
          (UserAcl.new user_dn ga gd m l).scoped_entries)
  ∧ (∀ (user_dn : String) (ga gd : PermissionBitmap) (m : AttrMap) (l : List ScopedEntry)
        (p : Int),
        (UserAcl.new user_dn ga gd m l).scoped_entries.filter
            (fun e => decide (e.priority = p))
          = l.filter (fun e => decide (e.priority = p)))
  ∧ (∀ (user_dn : String) (rows : List AclRow),
        List.Sorted (fun a b => a.priority ≤ b.priority)
          (compile user_dn rows).scoped_entries)
  ∧ (∀ (user_dn target_dn : String) (e1 e2 : ScopedEntry),
        e1.deny = false → e2.deny = false → ¬(e1.priority = e2.priority) →
        e1.matches (lowerStr target_dn) (lowerStr user_dn)
          (decide (lowerStr target_dn = lowerStr user_dn)) = true →
        e2.matches (lowerStr target_dn) (lowerStr user_dn)
          (decide (lowerStr target_dn = lowerStr user_dn)) = true →
        (UserAcl.new user_dn PermissionBitmap.EMPTY PermissionBitmap.EMPTY []
            [e1, e2]).effective_permissions target_dn
          = e1.permissions.union e2.permissions
        ∧ (UserAcl.new user_dn PermissionBitmap.EMPTY PermissionBitmap.EMPTY []
            [e2, e1]).effective_permissions target_dn
          = e1.permissions.union e2.permissions) := by
  refine ⟨?_, ?_, ?_, ?_⟩
  · intro dn ga gd m l
    exact sorted_sortScoped l
  · intro dn ga gd m l p
    exact filter_sortScoped l p
  · intro dn rows
    exact sorted_sortScoped _
  · intro dn t e1 e2 h1 h2 hp hm1 hm2
    refine ⟨eff_two_allow dn t e1 e2 h1 h2 hm1 hm2, ?_⟩
    rw [eff_two_allow dn t e2 e1 h2 h1 hm2 hm1, pb_union_comm]

/-- Sample allow entries at distinct priorities on the same subtree scope. -/
def prioEntryOne : ScopedEntry :=
  { dn_lower := "ou=users,dc=x", subtree := true, self_only := false, deny := false,
    priority := 1, permissions := PermissionBitmap.mk 1, attr_acls := [] }

/-- Second sample allow entry at priority 100. -/
def prioEntryTwo : ScopedEntry :=
  { dn_lower := "ou=users,dc=x", subtree := true, self_only := false, deny := false,
    priority := 100, permissions := PermissionBitmap.mk 2, attr_acls := [] }

/-- C8 witness: the order-independence at two concrete allow entries, plus
    the sortedness and stability facts at a concrete ACL. -/
theorem c8_scoped_sorted_stable_witness :
    prioEntryOne.deny = false
  ∧ prioEntryTwo.deny = false
  ∧ ¬(prioEntryOne.priority = prioEntryTwo.priority)
  ∧ prioEntryOne.matches (lowerStr "uid=j,ou=users,dc=x") (lowerStr "uid=u,dc=x")
      (decide (lowerStr "uid=j,ou=users,dc=x" = lowerStr "uid=u,dc=x")) = true
  ∧ ((UserAcl.new "uid=u,dc=x" PermissionBitmap.EMPTY PermissionBitmap.EMPTY []
        [prioEntryOne, prioEntryTwo]).effective_permissions "uid=j,ou=users,dc=x"
      = prioEntryOne.permissions.union prioEntryTwo.permissions
    ∧ (UserAcl.new "uid=u,dc=x" PermissionBitmap.EMPTY PermissionBitmap.EMPTY []
        [prioEntryTwo, prioEntryOne]).effective_permissions "uid=j,ou=users,dc=x"
      = prioEntryOne.permissions.union prioEntryTwo.permissions) :=
  ⟨rfl, rfl, by decide, by decide,
    c8_scoped_sorted_stable.2.2.2 "uid=u,dc=x" "uid=j,ou=users,dc=x" prioEntryOne prioEntryTwo
      rfl rfl (by decide) (by decide) (by decide)⟩

/-- A row with empty scope DN, `self_only` set and base scope type: the
    compiler turns it into a synthetic scoped entry with `subtree = false`. -/
def selfBaseRow : AclRow :=
  { policy_name := "p", perm_low := 1, perm_high := 0, scope_dn := "", scope_type := "base",
    self_only := true, deny := false, priority := 0, attr_rules := [] }

/-- C2 counterexample: the synthetic self-only entry compiled from a row
    with base scope type does not match the principal's own entry (target
    equal to the user DN, `is_self` true), against the claim that such
    entries match the principal's own entry for any scope type. -/
theorem c2_counterexample_base_self_only :
    (compile "uid=u" [selfBaseRow]).scoped_entries.map
      (fun e => e.matches "uid=u" "uid=u" true) = [false] := by
  decide

/-- C2 (amended): a single row is global exactly when its scope DN is empty
    and it is not self-only, and otherwise compiles to the expected scoped
    entry with untouched globals; a synthetic self-only entry with empty
    scope DN matches exactly the `is_self` targets when its scope type is
    subtree, and with base scope type only an empty target that is also self. -/
theorem c2_classification_amended :
    (∀ (user_dn : String) (row : AclRow),
        (row.scope_dn = "" ∧ row.self_only = false →
          (compile user_dn [row]).scoped_entries = []
          ∧ (compile user_dn [row]).global_allow
              = (if row.deny then PermissionBitmap.EMPTY
                 else PermissionBitmap.from_halves row.perm_low row.perm_high)
          ∧ (compile user_dn [row]).global_deny
              = (if row.deny then PermissionBitmap.from_halves row.perm_low row.perm_high
                 else PermissionBitmap.EMPTY))
        ∧ (¬(row.scope_dn = "" ∧ row.self_only = false) →
            (compile user_dn [row]).scoped_entries
              = [{ dn_lower := lowerStr row.scope_dn
                   subtree := decide (lowerStr row.scope_type = lowerStr "subtree")
                   self_only := row.self_only
                   deny := row.deny
                   priority := row.priority
                   permissions := PermissionBitmap.from_halves row.perm_low row.perm_high
                   attr_acls := build_attr_acls row.attr_rules }]
            ∧ (compile user_dn [row]).global_allow = PermissionBitmap.EMPTY
            ∧ (compile user_dn [row]).global_deny = PermissionBitmap.EMPTY))
  ∧ (∀ (e : ScopedEntry), e.self_only = true → e.subtree = true → e.dn_lower = "" →
        ∀ (tl ul : String) (b : Bool), e.matches tl ul b = b)
  ∧ (∀ (e : ScopedEntry), e.self_only = true → e.subtree = false → e.dn_lower = "" →
        ∀ (tl ul : String) (b : Bool),
          (e.matches tl ul b = true ↔ b = true ∧ tl = "")) := by
  refine ⟨?_, ?_, ?_⟩
  · intro dn row
    constructor
    · rintro ⟨hs, hso⟩
      by_cases hd : row.deny
      · simp [compile, compileStep, hs, hso, hd, UserAcl.new, sortScoped, pb_empty_union]
      · simp [compile, compileStep, hs, hso, hd, UserAcl.new, sortScoped, pb_empty_union]
    · intro h
      simp [compile, compileStep, h, UserAcl.new, sortScoped, insertScoped]
  · intro e h1 h2 h3 tl ul b
    cases b <;> simp [ScopedEntry.matches, h1, h2, h3]
  · intro e h1 h2 h3 tl ul b
    cases b <;> simp [ScopedEntry.matches, h1, h2, h3]

/-- Scoped sample row used to witness the scoped branch of compilation. -/
def scopedRow : AclRow :=
  { policy_name := "q", perm_low := 2, perm_high := 0, scope_dn := "OU=Special,DC=X",
    scope_type := "subtree", self_only := false, deny := false, priority := 5,
    attr_rules := [] }

/-- Synthetic self-only subtree entry as compiled from an empty-scope
    self-only row. -/
def selfSubEntry : ScopedEntry :=
  { dn_lower := "", subtree := true, self_only := true, deny := false, priority := 0,
    permissions := PermissionBitmap.mk 2, attr_acls := [] }

/-- C2 witness: the scoped classification at a concrete non-global row, and
    the self-only subtree matching at a concrete entry. -/
theorem c2_classification_amended_witness :
    ¬(scopedRow.scope_dn = "" ∧ scopedRow.self_only = false)
  ∧ (compile "uid=u" [scopedRow]).scoped_entries
      = [{ dn_lower := lowerStr scopedRow.scope_dn
           subtree := decide (lowerStr scopedRow.scope_type = lowerStr "subtree")
           self_only := scopedRow.self_only
           deny := scopedRow.deny
           priority := scopedRow.priority
           permissions := PermissionBitmap.from_halves scopedRow.perm_low scopedRow.perm_high
           attr_acls := build_attr_acls scopedRow.attr_rules }]
  ∧ (compile "uid=u" [scopedRow]).global_allow = PermissionBitmap.EMPTY
  ∧ (compile "uid=u" [scopedRow]).global_deny = PermissionBitmap.EMPTY
  ∧ selfSubEntry.matches "uid=u" "uid=u" true = true :=
  ⟨by decide,
   ((c2_classification_amended.1 "uid=u" scopedRow).2 (by decide)).1,
   ((c2_classification_amended.1 "uid=u" scopedRow).2 (by decide)).2.1,
   ((c2_classification_amended.1 "uid=u" scopedRow).2 (by decide)).2.2,
   c2_classification_amended.2.1 selfSubEntry rfl rfl rfl "uid=u" "uid=u" true⟩

/-- Lookup after an or-insert update: the updated key holds the transformed
    value (with `allow_all` default), everything else is untouched. -/
lemma mapGet_updateEntry (m : AttrMap) (k k' : String)
    (f : ObjectAttributeAcl → ObjectAttributeAcl) :
    mapGet (updateEntry m k f) k'
      = if k = k' then some (f (getFilterAcl m k)) else mapGet m k' := by
  induction m with
  | nil =>
    simp only [updateEntry, mapGet, getFilterAcl, Option.getD_none]
  | cons kv rest ih =>
    obtain ⟨k₁, v⟩ := kv
    by_cases h1 : k₁ = k
    · subst h1
      by_cases h2 : k₁ = k'
      · simp [updateEntry, mapGet, h2, getFilterAcl]
      · simp [updateEntry, mapGet, h2, getFilterAcl]
    · by_cases h2 : k₁ = k'
      · subst h2
        have h3 : ¬(k = k₁) := fun h => h1 h.symm
        simp [updateEntry, mapGet, h1, h3]
      · simp [updateEntry, mapGet, h1, h2, ih, getFilterAcl]

/-- Default-lookup version of `mapGet_updateEntry`. -/
lemma getFilterAcl_updateEntry (m : AttrMap) (k k' : String)
    (f : ObjectAttributeAcl → ObjectAttributeAcl) :
    getFilterAcl (updateEntry m k f) k'
      = if k = k' then f (getFilterAcl m k) else getFilterAcl m k' := by
  simp only [getFilterAcl, mapGet_updateEntry]
  split <;> simp

/-- Global deny-merge: at every key, both allowed components are untouched
    and both denied components grow by exactly the contributed denied
    attributes of the deny policies keyed there. -/
lemma deny_merge_spec (d : AttrMap) (g : AttrMap) (k : String) :
    ((getFilterAcl (merge_global_attr_acls_deny g d) k).read.allowed
        = (getFilterAcl g k).read.allowed)
  ∧ ((getFilterAcl (merge_global_attr_acls_deny g d) k).write.allowed
        = (getFilterAcl g k).write.allowed)
  ∧ ((getFilterAcl (merge_global_attr_acls_deny g d) k).read.denied
        = (getFilterAcl g k).read.denied ++ collectDenied d k true)
  ∧ ((getFilterAcl (merge_global_attr_acls_deny g d) k).write.denied
        = (getFilterAcl g k).write.denied ++ collectDenied d k false) := by
  induction d generalizing g with
  | nil => simp [merge_global_attr_acls_deny, collectDenied]
  | cons kv rest ih =>
    obtain ⟨k₀, a₀⟩ := kv
    simp only [merge_global_attr_acls_deny, collectDenied]
    have hstep := ih (updateEntry g k₀ (fun acl => denyMergeOne acl a₀))
    refine ⟨?_, ?_, ?_, ?_⟩
    · rw [hstep.1, getFilterAcl_updateEntry]
      by_cases h : k₀ = k
      · simp [h, denyMergeOne, AttributeFilter.add_denied]
      · simp [h]
    · rw [hstep.2.1, getFilterAcl_updateEntry]
      by_cases h : k₀ = k
      · simp [h, denyMergeOne, AttributeFilter.add_denied]
      · simp [h]
    · rw [hstep.2.2.1, getFilterAcl_updateEntry]
      by_cases h : k₀ = k
      · simp [h, denyMergeOne, AttributeFilter.add_denied, List.append_assoc]
      · simp [h]
    · rw [hstep.2.2.2, getFilterAcl_updateEntry]
      by_cases h : k₀ = k
      · simp [h, denyMergeOne, AttributeFilter.add_denied, List.append_assoc]
      · simp [h]

/-- C4: deny rules contribute only denied attributes: the global deny-merge
    adds each referenced object type's read/write denied attributes to the
    corresponding global filter's denied set and never touches an allowed
    set, and the per-entry step of attribute filter resolution likewise
    keeps the allowed set of the resolved filter and, for a matching deny
    entry with rules for the object type, appends exactly the same-action
    denied attributes. -/
theorem c4_deny_contributes_only_denied :
    (∀ (g d : AttrMap) (k : String),
        ((getFilterAcl (merge_global_attr_acls_deny g d) k).read.allowed
            = (getFilterAcl g k).read.allowed)
      ∧ ((getFilterAcl (merge_global_attr_acls_deny g d) k).write.allowed
            = (getFilterAcl g k).write.allowed)
      ∧ ((getFilterAcl (merge_global_attr_acls_deny g d) k).read.denied
            = (getFilterAcl g k).read.denied ++ collectDenied d k true)
      ∧ ((getFilterAcl (merge_global_attr_acls_deny g d) k).write.denied
            = (getFilterAcl g k).write.denied ++ collectDenied d k false))
  ∧ (∀ (tl ul : String) (s : Bool) (object_type action : String)
        (filter : AttributeFilter) (e : ScopedEntry) (oa : ObjectAttributeAcl),
        e.deny = true →
        ((UserAcl.resolveStepForType tl ul s object_type action filter e).allowed
            = filter.allowed)
        ∧ (e.matches tl ul s = true → mapGet e.attr_acls object_type = some oa →
            (UserAcl.resolveStepForType tl ul s object_type action filter e).denied
              = filter.denied
                ++ ((UserAcl.selectActionFilter oa action).denied.map lowerStr))) := by
  constructor
  · intro g d k
    exact deny_merge_spec d g k
  · intro tl ul s ot act filter e oa hdeny
    constructor
    · unfold UserAcl.resolveStepForType
      by_cases hm : e.matches tl ul s = true
      · rw [if_pos hm]
        cases hoa : mapGet e.attr_acls ot with
        | none => rfl
        | some oa' => simp [hdeny, AttributeFilter.add_denied]
      · rw [if_neg hm]
    · intro hm hoa
      unfold UserAcl.resolveStepForType
      rw [if_pos hm]
      simp [hoa, hdeny, AttributeFilter.add_denied]

/-- Sample global attribute map: a read whitelist for object type user. -/
def sampleGlobalAcls : AttrMap :=
  [("user", { read := AttributeFilter.with_allowed ["cn"],
              write := AttributeFilter.allow_all })]

/-- Sample deny policy attribute ACL denying the password on both sides. -/
def sampleDenyObjAcl : ObjectAttributeAcl :=
  { read := AttributeFilter.with_denied ["userPassword"],
    write := AttributeFilter.with_denied ["userPassword"] }

/-- Sample deny attribute map keyed by object type user. -/
def sampleDenyAcls : AttrMap := [("user", sampleDenyObjAcl)]

/-- Sample matching deny entry carrying the deny attribute ACLs. -/
def sampleDenyEntry : ScopedEntry :=
  { dn_lower := "ou=users,dc=x", subtree := true, self_only := false, deny := true,
    priority := 10, permissions := PermissionBitmap.mk 2, attr_acls := sampleDenyAcls }

/-- C4 witness: the deny-merge equations at a concrete global map and deny
    map, and the resolution step at a concrete matching deny entry. -/
theorem c4_deny_contributes_only_denied_witness :
    (((getFilterAcl (merge_global_attr_acls_deny sampleGlobalAcls sampleDenyAcls)
          "user").read.allowed = (getFilterAcl sampleGlobalAcls "user").read.allowed)
      ∧ ((getFilterAcl (merge_global_attr_acls_deny sampleGlobalAcls sampleDenyAcls)
          "user").write.allowed = (getFilterAcl sampleGlobalAcls "user").write.allowed)
      ∧ ((getFilterAcl (merge_global_attr_acls_deny sampleGlobalAcls sampleDenyAcls)
          "user").read.denied
            = (getFilterAcl sampleGlobalAcls "user").read.denied
              ++ collectDenied sampleDenyAcls "user" true)
      ∧ ((getFilterAcl (merge_global_attr_acls_deny sampleGlobalAcls sampleDenyAcls)
          "user").write.denied
            = (getFilterAcl sampleGlobalAcls "user").write.denied
              ++ collectDenied sampleDenyAcls "user" false))
  ∧ sampleDenyEntry.deny = true
  ∧ sampleDenyEntry.matches "uid=j,ou=users,dc=x" "uid=u,dc=x" false = true
  ∧ mapGet sampleDenyEntry.attr_acls "user" = some sampleDenyObjAcl
  ∧ (UserAcl.resolveStepForType "uid=j,ou=users,dc=x" "uid=u,dc=x" false "user" "read"
        (AttributeFilter.with_allowed ["cn"]) sampleDenyEntry).allowed
      = (AttributeFilter.with_allowed ["cn"]).allowed
  ∧ (UserAcl.resolveStepForType "uid=j,ou=users,dc=x" "uid=u,dc=x" false "user" "read"
        (AttributeFilter.with_allowed ["cn"]) sampleDenyEntry).denied
      = (AttributeFilter.with_allowed ["cn"]).denied
        ++ ((UserAcl.selectActionFilter sampleDenyObjAcl "read").denied.map lowerStr) :=
  ⟨c4_deny_contributes_only_denied.1 sampleGlobalAcls sampleDenyAcls "user",
   rfl, by decide, by decide,
   (c4_deny_contributes_only_denied.2 "uid=j,ou=users,dc=x" "uid=u,dc=x" false "user" "read"
      (AttributeFilter.with_allowed ["cn"]) sampleDenyEntry sampleDenyObjAcl rfl).1,
   (c4_deny_contributes_only_denied.2 "uid=j,ou=users,dc=x" "uid=u,dc=x" false "user" "read"
      (AttributeFilter.with_allowed ["cn"]) sampleDenyEntry sampleDenyObjAcl rfl).2
      (by decide) (by decide)⟩
